import Mathlib

/-!
Shallow embedding of the phitodo task manager core (domain models, the
filter/view engine, the task mutation service and the order-index
allocator), together with theorems checking the natural-language
specification against it.

Conventions of the embedding:
* Python `str` is `String`, `float` order indices are exact rationals `ℚ`,
  `Optional[x]` is `Option x`, a Python `dict` used as a JSON-like transport
  value is an association list `List (String × JValue)` (Python dicts
  preserve insertion order).
* Python truthiness of an optional string (`None` and `""` are falsy) is
  modelled explicitly wherever the source relies on it.
* The wall clock (`now_iso`) and the id generator are passed as explicit
  `String` arguments, since the source reads them effectfully.
* Fallible constructions (Python code that can raise `ValueError`/`KeyError`,
  e.g. enum parsing in `from_dict`) return `Option`.
-/

namespace Phitodo

/-- `TaskStatus` enum from `domain/enums.py`. -/
inductive TaskStatus where
  | inbox
  | active
  | scheduled
  | completed
  | cancelled
deriving DecidableEq, Repr

/-- The `.value` string of a `TaskStatus`. -/
def TaskStatus.val : TaskStatus → String
  | .inbox => "inbox"
  | .active => "active"
  | .scheduled => "scheduled"
  | .completed => "completed"
  | .cancelled => "cancelled"

/-- `TaskStatus(s)` construction; raises (`none`) on an unknown value. -/
def TaskStatus.parse? : String → Option TaskStatus
  | "inbox" => some .inbox
  | "active" => some .active
  | "scheduled" => some .scheduled
  | "completed" => some .completed
  | "cancelled" => some .cancelled
  | _ => none

/-- `TaskPriority` enum from `domain/enums.py`. -/
inductive TaskPriority where
  | none
  | low
  | medium
  | high
deriving DecidableEq, Repr

/-- The `.value` string of a `TaskPriority`. -/
def TaskPriority.val : TaskPriority → String
  | .none => "none"
  | .low => "low"
  | .medium => "medium"
  | .high => "high"

/-- `TaskPriority(s)` construction; raises (`none`) on an unknown value. -/
def TaskPriority.parse? : String → Option TaskPriority
  | "none" => some .none
  | "low" => some .low
  | "medium" => some .medium
  | "high" => some .high
  | _ => Option.none

/-- `TaskKind` enum from `domain/enums.py`. -/
inductive TaskKind where
  | task
  | bug
  | feature
  | chore
deriving DecidableEq, Repr

/-- The `.value` string of a `TaskKind`. -/
def TaskKind.val : TaskKind → String
  | .task => "task"
  | .bug => "bug"
  | .feature => "feature"
  | .chore => "chore"

/-- `TaskKind(s)` construction; raises (`none`) on an unknown value. -/
def TaskKind.parse? : String → Option TaskKind
  | "task" => some .task
  | "bug" => some .bug
  | "feature" => some .feature
  | "chore" => some .chore
  | _ => none

/-- `TaskSize` enum from `domain/enums.py`. -/
inductive TaskSize where
  | xs
  | s
  | m
  | l
deriving DecidableEq, Repr

/-- The `.value` string of a `TaskSize`. -/
def TaskSize.val : TaskSize → String
  | .xs => "xs"
  | .s => "s"
  | .m => "m"
  | .l => "l"

/-- `TaskSize(s)` construction; raises (`none`) on an unknown value. -/
def TaskSize.parse? : String → Option TaskSize
  | "xs" => some .xs
  | "s" => some .s
  | "m" => some .m
  | "l" => some .l
  | _ => none

/-- The `Task` dataclass from `domain/models.py`.  The `metadata` bag
(`dict[str, Any]` in the source) is modelled as a string-keyed,
string-valued association list. -/
structure Task where
  id : String
  title : String
  created_at : String
  updated_at : String
  order_index : ℚ := 0
  notes : Option String := none
  due_date : Option String := none
  start_date : Option String := none
  completed_at : Option String := none
  project_id : Option String := none
  section_id : Option String := none
  parent_task_id : Option String := none
  priority : TaskPriority := .none
  tags : List String := []
  status : TaskStatus := .inbox
  repeat_rule : Option String := none
  deleted : Bool := false
  kind : Option TaskKind := none
  size : Option TaskSize := none
  assignee : Option String := none
  context_url : Option String := none
  metadata : List (String × String) := []
deriving DecidableEq, Repr

/-- `ViewCriteria` dataclass from `domain/filters.py`. -/
structure ViewCriteria where
  statuses : List TaskStatus := []
  project_ids : List String := []
  tag_ids : List String := []
  priorities : List TaskPriority := []
  kinds : List TaskKind := []
  sizes : List TaskSize := []
  assignee : Option String := none
  due_date_start : Option String := none
  due_date_end : Option String := none
  start_date_start : Option String := none
  start_date_end : Option String := none
  include_deleted : Bool := false
  search_query : Option String := none
deriving DecidableEq, Repr

/-- Python truthiness of an `Optional[str]`: `None` and `""` are falsy. -/
def strTruthy : Option String → Bool
  | none => false
  | some s => !s.isEmpty

/-- Python membership `x in l` for an optional left operand: `None in l`
is false for a list of strings/enums. -/
def omem {α : Type} [DecidableEq α] (o : Option α) (l : List α) : Bool :=
  match o with
  | some x => decide (x ∈ l)
  | none => false

/-- Bool-valued infix test on character lists (Python `needle in hay`). -/
def infixAux (n : List Char) : List Char → Bool
  | [] => n.isEmpty
  | c :: rest => n.isPrefixOf (c :: rest) || infixAux n rest

/-- Python substring containment `needle in hay`. -/
def strContains (hay needle : String) : Bool :=
  infixAux needle.data hay.data

/-- The due-date range check of `filter_tasks` (true = the task is skipped). -/
def dueRangeSkip (c : ViewCriteria) (t : Task) : Bool :=
  if strTruthy c.due_date_start || strTruthy c.due_date_end then
    match t.due_date with
    | none => true
    | some d =>
      if d.isEmpty then true
      else
        (match c.due_date_start with
         | some s => !s.isEmpty && decide (d.take 10 < s)
         | none => false) ||
        (match c.due_date_end with
         | some e => !e.isEmpty && decide (e < d.take 10)
         | none => false)
  else false

/-- The start-date range check of `filter_tasks` (true = the task is skipped). -/
def startRangeSkip (c : ViewCriteria) (t : Task) : Bool :=
  if strTruthy c.start_date_start || strTruthy c.start_date_end then
    match t.start_date with
    | none => true
    | some d =>
      if d.isEmpty then true
      else
        (match c.start_date_start with
         | some s => !s.isEmpty && decide (d.take 10 < s)
         | none => false) ||
        (match c.start_date_end with
         | some e => !e.isEmpty && decide (e < d.take 10)
         | none => false)
  else false

/-- The search-query check of `filter_tasks` (true = the task is skipped). -/
def searchSkip (q : Option String) (t : Task) : Bool :=
  match q with
  | none => false
  | some q =>
    if q.isEmpty then false
    else
      let query := q.toLower
      !(strContains t.title.toLower query) &&
        (match t.notes with
         | none => true
         | some n => n.isEmpty || !(strContains n.toLower query))

/-- The per-task predicate of `filter_tasks` (`domain/filters.py`): each
`continue` of the source loop is a `false` branch here. -/
def matches_criteria (c : ViewCriteria) (t : Task) : Bool :=
  if !c.include_deleted && t.deleted then false
  else if !c.statuses.isEmpty && !(decide (t.status ∈ c.statuses)) then false
  else if !c.project_ids.isEmpty && !(omem t.project_id c.project_ids) then false
  else if !c.tag_ids.isEmpty && !(c.tag_ids.any fun tag => decide (tag ∈ t.tags)) then false
  else if !c.priorities.isEmpty && !(decide (t.priority ∈ c.priorities)) then false
  else if !c.kinds.isEmpty && !(omem t.kind c.kinds) then false
  else if !c.sizes.isEmpty && !(omem t.size c.sizes) then false
  else if (match c.assignee with
           | some a => !a.isEmpty && !(decide (t.assignee = some a))
           | none => false) then false
  else if dueRangeSkip c t then false
  else if startRangeSkip c t then false
  else if searchSkip c.search_query t then false
  else true

/-- `filter_tasks` from `domain/filters.py`: the source loop appends each
task passing every criteria check, i.e. a filter. -/
def filter_tasks (tasks : List Task) (criteria : ViewCriteria) : List Task :=
  tasks.filter (matches_criteria criteria)

/-- Sort relation `key=lambda t: t.order_index` (Python `sorted` is a
stable sort by a key; a stable sort by key `k` is `insertionSort` by
`k a ≤ k b`). -/
def leOrderIndex (a b : Task) : Prop := a.order_index ≤ b.order_index

instance : DecidableRel leOrderIndex :=
  fun a b => inferInstanceAs (Decidable (a.order_index ≤ b.order_index))

instance : IsTotal Task leOrderIndex := ⟨fun a b => le_total a.order_index b.order_index⟩

instance : IsTrans Task leOrderIndex := ⟨fun _ _ _ hab hbc => le_trans hab hbc⟩

/-- `get_inbox_tasks` from `domain/filters.py`. -/
def get_inbox_tasks (tasks : List Task) : List Task :=
  List.insertionSort leOrderIndex (filter_tasks tasks { statuses := [TaskStatus.inbox] })

/-- `task.due_date and task.due_date[:10] == today` as a boolean. -/
def is_due_today (today : String) (t : Task) : Bool :=
  match t.due_date with
  | some d => !d.isEmpty && decide (d.take 10 = today)
  | none => false

/-- `task.start_date and task.start_date[:10] == today` as a boolean. -/
def is_starting_today (today : String) (t : Task) : Bool :=
  match t.start_date with
  | some d => !d.isEmpty && decide (d.take 10 = today)
  | none => false

/-- `task.due_date and task.due_date[:10] < today` as a boolean. -/
def is_overdue (today : String) (t : Task) : Bool :=
  match t.due_date with
  | some d => !d.isEmpty && decide (d.take 10 < today)
  | none => false

/-- The membership predicate of `get_today_tasks`: not deleted, status not
completed/cancelled, and due today, starting today or overdue. -/
def today_pred (today : String) (t : Task) : Bool :=
  !t.deleted
    && !(decide (t.status = .completed) || decide (t.status = .cancelled))
    && (is_due_today today t || is_starting_today today t || is_overdue today t)

/-- `t.due_date or "9999-99-99"`: the full due-date string, or the maximal
sentinel when the due date is falsy. -/
def dueOrSentinel (t : Task) : String :=
  match t.due_date with
  | some d => if d.isEmpty then "9999-99-99" else d
  | none => "9999-99-99"

/-- The 3-key of the `get_today_tasks` sort:
`(not is_overdue, due_date or sentinel, order_index)`, compared
lexicographically like a Python tuple (`False < True` on booleans). -/
def todayKey (today : String) (t : Task) : Bool ×ₗ String ×ₗ ℚ :=
  toLex (!(is_overdue today t), toLex (dueOrSentinel t, t.order_index))

/-- The sort relation of `get_today_tasks` induced by `todayKey`. -/
def todayLe (today : String) (a b : Task) : Prop :=
  todayKey today a ≤ todayKey today b

instance (today : String) : DecidableRel (todayLe today) :=
  fun a b => inferInstanceAs (Decidable (todayKey today a ≤ todayKey today b))

instance (today : String) : IsTotal Task (todayLe today) :=
  ⟨fun a b => le_total (todayKey today a) (todayKey today b)⟩

instance (today : String) : IsTrans Task (todayLe today) :=
  ⟨fun _ _ _ hab hbc => le_trans hab hbc⟩

/-- `get_today_tasks` from `domain/filters.py`, with `today` injected (the
source reads `date.today().isoformat()`). -/
def get_today_tasks (today : String) (tasks : List Task) : List Task :=
  List.insertionSort (todayLe today) (tasks.filter (today_pred today))

/-- The membership predicate of `get_upcoming_tasks`: not deleted, status
not completed/cancelled, and a due or start date strictly after today. -/
def upcoming_pred (today : String) (t : Task) : Bool :=
  !t.deleted
    && !(decide (t.status = .completed) || decide (t.status = .cancelled))
    && ((match t.due_date with
         | some d => !d.isEmpty && decide (today < d.take 10)
         | none => false)
        || (match t.start_date with
            | some d => !d.isEmpty && decide (today < d.take 10)
            | none => false))

/-- The sort key of `get_upcoming_tasks`: the minimum of the present
(truthy) date prefixes, or the maximal sentinel. -/
def upcomingKey (t : Task) : String :=
  let ds :=
    (match t.due_date with
     | some d => if d.isEmpty then [] else [d.take 10]
     | none => []) ++
    (match t.start_date with
     | some d => if d.isEmpty then [] else [d.take 10]
     | none => [])
  match ds with
  | [] => "9999-99-99"
  | x :: xs => xs.foldl min x

/-- The sort relation of `get_upcoming_tasks`. -/
def upcomingLe (a b : Task) : Prop := upcomingKey a ≤ upcomingKey b

instance : DecidableRel upcomingLe :=
  fun a b => inferInstanceAs (Decidable (upcomingKey a ≤ upcomingKey b))

instance : IsTotal Task upcomingLe := ⟨fun a b => le_total (upcomingKey a) (upcomingKey b)⟩

instance : IsTrans Task upcomingLe := ⟨fun _ _ _ hab hbc => le_trans hab hbc⟩

/-- `get_upcoming_tasks` from `domain/filters.py`. -/
def get_upcoming_tasks (today : String) (tasks : List Task) : List Task :=
  List.insertionSort upcomingLe (tasks.filter (upcoming_pred today))

/-- The membership predicate of `get_anytime_tasks`: not deleted, status in
{active, inbox} and neither a (truthy) due date nor a start date. -/
def anytime_pred (t : Task) : Bool :=
  !t.deleted
    && (decide (t.status = .active) || decide (t.status = .inbox))
    && !(strTruthy t.due_date || strTruthy t.start_date)

/-- `get_anytime_tasks` from `domain/filters.py`. -/
def get_anytime_tasks (tasks : List Task) : List Task :=
  List.insertionSort leOrderIndex (tasks.filter anytime_pred)

/-- `t.completed_at or ""` — the sort key of `get_completed_tasks`. -/
def completedKey (t : Task) : String := t.completed_at.getD ""

/-- The descending sort relation of `get_completed_tasks` (Python
`sorted(..., reverse=True)` is the stable sort by the reversed
comparison). -/
def completedGe (a b : Task) : Prop := completedKey b ≤ completedKey a

instance : DecidableRel completedGe :=
  fun a b => inferInstanceAs (Decidable (completedKey b ≤ completedKey a))

instance : IsTotal Task completedGe := ⟨fun a b => le_total (completedKey b) (completedKey a)⟩

instance : IsTrans Task completedGe := ⟨fun _ _ _ hab hbc => le_trans hbc hab⟩

/-- `get_completed_tasks` from `domain/filters.py` (`limit` defaults to
100 in the source). -/
def get_completed_tasks (tasks : List Task) (limit : ℕ) : List Task :=
  (List.insertionSort completedGe
      (filter_tasks tasks { statuses := [TaskStatus.completed] })).take limit

/-- The membership predicate of `get_overdue_tasks`. -/
def overdue_pred (today : String) (t : Task) : Bool :=
  !t.deleted
    && !(decide (t.status = .completed) || decide (t.status = .cancelled))
    && is_overdue today t

/-- `t.due_date or ""` — the sort key of `get_overdue_tasks`. -/
def dueOrEmpty (t : Task) : String := t.due_date.getD ""

/-- The sort relation of `get_overdue_tasks`. -/
def dueLe (a b : Task) : Prop := dueOrEmpty a ≤ dueOrEmpty b

instance : DecidableRel dueLe :=
  fun a b => inferInstanceAs (Decidable (dueOrEmpty a ≤ dueOrEmpty b))

instance : IsTotal Task dueLe := ⟨fun a b => le_total (dueOrEmpty a) (dueOrEmpty b)⟩

instance : IsTrans Task dueLe := ⟨fun _ _ _ hab hbc => le_trans hab hbc⟩

/-- `get_overdue_tasks` from `domain/filters.py`. -/
def get_overdue_tasks (today : String) (tasks : List Task) : List Task :=
  List.insertionSort dueLe (tasks.filter (overdue_pred today))

/-- The membership predicate of `get_project_tasks`. -/
def project_pred (project_id : String) (t : Task) : Bool :=
  !t.deleted
    && !(decide (t.status = .completed) || decide (t.status = .cancelled))
    && decide (t.project_id = some project_id)

/-- `get_project_tasks` from `domain/filters.py`. -/
def get_project_tasks (tasks : List Task) (project_id : String) : List Task :=
  List.insertionSort leOrderIndex (tasks.filter (project_pred project_id))

/-- The membership predicate of `get_tag_tasks`. -/
def tag_pred (tag_id : String) (t : Task) : Bool :=
  !t.deleted
    && !(decide (t.status = .completed) || decide (t.status = .cancelled))
    && decide (tag_id ∈ t.tags)

/-- `get_tag_tasks` from `domain/filters.py`. -/
def get_tag_tasks (tasks : List Task) (tag_id : String) : List Task :=
  List.insertionSort leOrderIndex (tasks.filter (tag_pred tag_id))

/-- `search_tasks` from `domain/filters.py`. -/
def search_tasks (tasks : List Task) (query : String) : List Task :=
  filter_tasks tasks { search_query := some query }

/-- The universe of transport values (Python `Any` inside the `to_dict`
dictionaries): JSON-like values. -/
inductive JValue where
  | null
  | bool (b : Bool)
  | num (q : ℚ)
  | int (n : ℤ)
  | str (s : String)
  | arr (xs : List JValue)
  | obj (entries : List (String × JValue))

/-- Python truthiness of a transport value. -/
def JValue.truthy : JValue → Bool
  | .null => false
  | .bool b => b
  | .num q => decide (q ≠ 0)
  | .int n => decide (n ≠ 0)
  | .str s => !s.isEmpty
  | .arr xs => !xs.isEmpty
  | .obj es => !es.isEmpty

/-- Key lookup in a transport dictionary (`data[k]` raises — `none` — when
the key is absent). -/
def alookup : List (String × JValue) → String → Option JValue
  | [], _ => none
  | (k, v) :: rest, key => if key = k then some v else alookup rest key

/-- Python `data.get(k, dflt)`. -/
def pyGet (d : List (String × JValue)) (k : String) (dflt : JValue) : JValue :=
  (alookup d k).getD dflt

/-- Python `data.get(k1, data.get(k2, dflt))`. -/
def pyGet2 (d : List (String × JValue)) (k1 k2 : String) (dflt : JValue) : JValue :=
  match alookup d k1 with
  | some v => v
  | none => pyGet d k2 dflt

/-- Encode an optional string field (`None` becomes `null`). -/
def encOptStr : Option String → JValue
  | some s => .str s
  | none => .null

/-- Decode a string-typed field. -/
def decStr : JValue → Option String
  | .str s => some s
  | _ => none

/-- Decode an optional-string-typed field. -/
def decOptStr : JValue → Option (Option String)
  | .null => some none
  | .str s => some (some s)
  | _ => none

/-- Decode a bool-typed field. -/
def decBool : JValue → Option Bool
  | .bool b => some b
  | _ => none

/-- Decode a float-typed field (a Python int is accepted as a number). -/
def decNum : JValue → Option ℚ
  | .num q => some q
  | .int n => some (n : ℚ)
  | _ => none

/-- Decode an int-typed field. -/
def decInt : JValue → Option ℤ
  | .int n => some n
  | _ => none

/-- Decode a list of string values, failing on the first ill-typed one. -/
def decStrs : List JValue → Option (List String)
  | [] => some []
  | v :: vs => do
    let s ← decStr v
    let rest ← decStrs vs
    some (s :: rest)

/-- Decode a list-of-strings field. -/
def decStrList : JValue → Option (List String)
  | .arr xs => decStrs xs
  | _ => none

/-- Encode the string-valued metadata bag. -/
def encMeta (m : List (String × String)) : JValue :=
  .obj (m.map fun p => (p.1, .str p.2))

/-- Decode the entries of the string-valued metadata bag. -/
def decMetaEntries : List (String × JValue) → Option (List (String × String))
  | [] => some []
  | p :: ps => do
    let v ← decStr p.2
    let rest ← decMetaEntries ps
    some ((p.1, v) :: rest)

/-- Decode the string-valued metadata bag. -/
def decMeta : JValue → Option (List (String × String))
  | .obj es => decMetaEntries es
  | _ => none

/-- `self.kind.value if self.kind else None`. -/
def encOptKind : Option TaskKind → JValue
  | some k => .str k.val
  | none => .null

/-- `TaskKind(data["kind"]) if data.get("kind") else None` — parsing can
raise, a falsy fetched value yields `None`. -/
def decOptKind (v : JValue) : Option (Option TaskKind) :=
  if v.truthy then
    match v with
    | .str s => (TaskKind.parse? s).map some
    | _ => none
  else some none

/-- `self.size.value if self.size else None`. -/
def encOptSize : Option TaskSize → JValue
  | some z => .str z.val
  | none => .null

/-- `TaskSize(data["size"]) if data.get("size") else None`. -/
def decOptSize (v : JValue) : Option (Option TaskSize) :=
  if v.truthy then
    match v with
    | .str s => (TaskSize.parse? s).map some
    | _ => none
  else some none

/-- Decode a `TaskStatus`-valued field (`TaskStatus(x)` raises on a bad
value). -/
def decStatus : JValue → Option TaskStatus
  | .str s => TaskStatus.parse? s
  | _ => none

/-- Decode a `TaskPriority`-valued field. -/
def decPriority : JValue → Option TaskPriority
  | .str s => TaskPriority.parse? s
  | _ => none

/-- `Task.to_dict` from `domain/models.py`, keys in source order. -/
def Task.to_dict (t : Task) : List (String × JValue) :=
  [("id", .str t.id),
   ("title", .str t.title),
   ("notes", encOptStr t.notes),
   ("createdAt", .str t.created_at),
   ("updatedAt", .str t.updated_at),
   ("dueDate", encOptStr t.due_date),
   ("startDate", encOptStr t.start_date),
   ("completedAt", encOptStr t.completed_at),
   ("projectId", encOptStr t.project_id),
   ("sectionId", encOptStr t.section_id),
   ("parentTaskId", encOptStr t.parent_task_id),
   ("priority", .str t.priority.val),
   ("tags", .arr (t.tags.map .str)),
   ("status", .str t.status.val),
   ("repeatRule", encOptStr t.repeat_rule),
   ("orderIndex", .num t.order_index),
   ("deleted", .bool t.deleted),
   ("kind", encOptKind t.kind),
   ("size", encOptSize t.size),
   ("assignee", encOptStr t.assignee),
   ("contextUrl", encOptStr t.context_url),
   ("metadata", encMeta t.metadata)]

/-- First third of the fields read by `Task.from_dict` (the split into
thirds is purely structural; the `Option` failure semantics of the
composition equals the source's single sequence of fallible reads). -/
structure TaskFieldsA where
  id : String
  title : String
  notes : Option String
  created_at : String
  updated_at : String
  due_date : Option String
  start_date : Option String

/-- Second third of the fields read by `Task.from_dict`. -/
structure TaskFieldsB where
  completed_at : Option String
  project_id : Option String
  section_id : Option String
  parent_task_id : Option String
  priority : TaskPriority
  tags : List String
  status : TaskStatus

/-- Last third of the fields read by `Task.from_dict`. -/
structure TaskFieldsC where
  repeat_rule : Option String
  order_index : ℚ
  deleted : Bool
  kind : Option TaskKind
  size : Option TaskSize
  assignee : Option String
  context_url : Option String
  metadata : List (String × String)

/-- Reads of `Task.from_dict`, first group. -/
def Task.fromDictA (data : List (String × JValue)) : Option TaskFieldsA := do
  let id ← (← alookup data "id") |> decStr
  let title ← (← alookup data "title") |> decStr
  let notes ← decOptStr (pyGet data "notes" .null)
  let created_at ← decStr (pyGet2 data "createdAt" "created_at" (.str ""))
  let updated_at ← decStr (pyGet2 data "updatedAt" "updated_at" (.str ""))
  let due_date ← decOptStr (pyGet2 data "dueDate" "due_date" .null)
  let start_date ← decOptStr (pyGet2 data "startDate" "start_date" .null)
  some ⟨id, title, notes, created_at, updated_at, due_date, start_date⟩

/-- Reads of `Task.from_dict`, second group. -/
def Task.fromDictB (data : List (String × JValue)) : Option TaskFieldsB := do
  let completed_at ← decOptStr (pyGet2 data "completedAt" "completed_at" .null)
  let project_id ← decOptStr (pyGet2 data "projectId" "project_id" .null)
  let section_id ← decOptStr (pyGet2 data "sectionId" "section_id" .null)
  let parent_task_id ← decOptStr (pyGet2 data "parentTaskId" "parent_task_id" .null)
  let priority ← decPriority (pyGet data "priority" (.str "none"))
  let tags ← decStrList (pyGet data "tags" (.arr []))
  let status ← decStatus (pyGet data "status" (.str "inbox"))
  some ⟨completed_at, project_id, section_id, parent_task_id, priority, tags, status⟩

/-- Reads of `Task.from_dict`, last group. -/
def Task.fromDictC (data : List (String × JValue)) : Option TaskFieldsC := do
  let repeat_rule ← decOptStr (pyGet2 data "repeatRule" "repeat_rule" .null)
  let order_index ← decNum (pyGet2 data "orderIndex" "order_index" (.num 0))
  let deleted ← decBool (pyGet data "deleted" (.bool false))
  let kind ← decOptKind (pyGet data "kind" .null)
  let size ← decOptSize (pyGet data "size" .null)
  let assignee ← decOptStr (pyGet data "assignee" .null)
  let context_url ← decOptStr (pyGet2 data "contextUrl" "context_url" .null)
  let metadata ← decMeta (pyGet data "metadata" (.obj []))
  some ⟨repeat_rule, order_index, deleted, kind, size, assignee, context_url, metadata⟩

/-- `Task.from_dict` from `domain/models.py`.  `none` models a raised
`KeyError`/`ValueError` (or an ill-typed field value). -/
def Task.from_dict (data : List (String × JValue)) : Option Task := do
  let a ← Task.fromDictA data
  let b ← Task.fromDictB data
  let c ← Task.fromDictC data
  some { id := a.id, title := a.title, notes := a.notes, created_at := a.created_at,
         updated_at := a.updated_at, due_date := a.due_date, start_date := a.start_date,
         completed_at := b.completed_at, project_id := b.project_id,
         section_id := b.section_id, parent_task_id := b.parent_task_id,
         priority := b.priority, tags := b.tags, status := b.status,
         repeat_rule := c.repeat_rule, order_index := c.order_index,
         deleted := c.deleted, kind := c.kind, size := c.size, assignee := c.assignee,
         context_url := c.context_url, metadata := c.metadata }

/-- The `Reminder` dataclass from `domain/models.py`. -/
structure Reminder where
  id : String
  task_id : String
  «at» : String
  created_at : String
  updated_at : String
  cancelled_at : Option String := none
  deleted : Bool := false
deriving DecidableEq, Repr

/-- `Reminder.to_dict` from `domain/models.py`. -/
def Reminder.to_dict (r : Reminder) : List (String × JValue) :=
  [("id", .str r.id),
   ("taskId", .str r.task_id),
   ("at", .str r.«at»),
   ("createdAt", .str r.created_at),
   ("updatedAt", .str r.updated_at),
   ("cancelledAt", encOptStr r.cancelled_at),
   ("deleted", .bool r.deleted)]

/-- `Reminder.from_dict` from `domain/models.py`. -/
def Reminder.from_dict (data : List (String × JValue)) : Option Reminder := do
  let id ← (← alookup data "id") |> decStr
  let task_id ← decStr (pyGet2 data "taskId" "task_id" (.str ""))
  let atv ← (← alookup data "at") |> decStr
  let created_at ← decStr (pyGet2 data "createdAt" "created_at" (.str ""))
  let updated_at ← decStr (pyGet2 data "updatedAt" "updated_at" (.str ""))
  let cancelled_at ← decOptStr (pyGet2 data "cancelledAt" "cancelled_at" .null)
  let deleted ← decBool (pyGet data "deleted" (.bool false))
  some ⟨id, task_id, atv, created_at, updated_at, cancelled_at, deleted⟩

/-- The `Project` dataclass from `domain/models.py`. -/
structure Project where
  id : String
  name : String
  created_at : String
  updated_at : String
  order_index : ℚ := 0
  description : Option String := none
  color : Option String := none
  icon : Option String := none
  is_inbox : Bool := false
  deleted : Bool := false
deriving DecidableEq, Repr

/-- `Project.to_dict` from `domain/models.py`. -/
def Project.to_dict (p : Project) : List (String × JValue) :=
  [("id", .str p.id),
   ("name", .str p.name),
   ("description", encOptStr p.description),
   ("color", encOptStr p.color),
   ("icon", encOptStr p.icon),
   ("orderIndex", .num p.order_index),
   ("isInbox", .bool p.is_inbox),
   ("createdAt", .str p.created_at),
   ("updatedAt", .str p.updated_at),
   ("deleted", .bool p.deleted)]

/-- `Project.from_dict` from `domain/models.py` (first half of the reads). -/
def Project.fromDictA (data : List (String × JValue)) :
    Option (String × String × Option String × Option String × Option String) := do
  let id ← (← alookup data "id") |> decStr
  let name ← (← alookup data "name") |> decStr
  let description ← decOptStr (pyGet data "description" .null)
  let color ← decOptStr (pyGet data "color" .null)
  let icon ← decOptStr (pyGet data "icon" .null)
  some (id, name, description, color, icon)

/-- `Project.from_dict` from `domain/models.py`. -/
def Project.from_dict (data : List (String × JValue)) : Option Project := do
  let a ← Project.fromDictA data
  let order_index ← decNum (pyGet2 data "orderIndex" "order_index" (.num 0))
  let is_inbox ← decBool (pyGet2 data "isInbox" "is_inbox" (.bool false))
  let created_at ← decStr (pyGet2 data "createdAt" "created_at" (.str ""))
  let updated_at ← decStr (pyGet2 data "updatedAt" "updated_at" (.str ""))
  let deleted ← decBool (pyGet data "deleted" (.bool false))
  some { id := a.1, name := a.2.1, description := a.2.2.1, color := a.2.2.2.1,
         icon := a.2.2.2.2, order_index := order_index, is_inbox := is_inbox,
         created_at := created_at, updated_at := updated_at, deleted := deleted }

/-- The `Section` dataclass from `domain/models.py`. -/
structure Section where
  id : String
  project_id : String
  name : String
  created_at : String
  updated_at : String
  order_index : ℚ := 0
  deleted : Bool := false
deriving DecidableEq, Repr

/-- `Section.to_dict` from `domain/models.py`. -/
def Section.to_dict (s : Section) : List (String × JValue) :=
  [("id", .str s.id),
   ("projectId", .str s.project_id),
   ("name", .str s.name),
   ("orderIndex", .num s.order_index),
   ("createdAt", .str s.created_at),
   ("updatedAt", .str s.updated_at),
   ("deleted", .bool s.deleted)]

/-- `Section.from_dict` from `domain/models.py`. -/
def Section.from_dict (data : List (String × JValue)) : Option Section := do
  let id ← (← alookup data "id") |> decStr
  let project_id ← decStr (pyGet2 data "projectId" "project_id" (.str ""))
  let name ← (← alookup data "name") |> decStr
  let order_index ← decNum (pyGet2 data "orderIndex" "order_index" (.num 0))
  let created_at ← decStr (pyGet2 data "createdAt" "created_at" (.str ""))
  let updated_at ← decStr (pyGet2 data "updatedAt" "updated_at" (.str ""))
  let deleted ← decBool (pyGet data "deleted" (.bool false))
  some ⟨id, project_id, name, created_at, updated_at, order_index, deleted⟩

/-- The `Tag` dataclass from `domain/models.py`. -/
structure Tag where
  id : String
  name : String
  created_at : String
  updated_at : String
  color : Option String := none
  deleted : Bool := false
deriving DecidableEq, Repr

/-- `Tag.to_dict` from `domain/models.py`. -/
def Tag.to_dict (g : Tag) : List (String × JValue) :=
  [("id", .str g.id),
   ("name", .str g.name),
   ("color", encOptStr g.color),
   ("createdAt", .str g.created_at),
   ("updatedAt", .str g.updated_at),
   ("deleted", .bool g.deleted)]

/-- `Tag.from_dict` from `domain/models.py`. -/
def Tag.from_dict (data : List (String × JValue)) : Option Tag := do
  let id ← (← alookup data "id") |> decStr
  let name ← (← alookup data "name") |> decStr
  let color ← decOptStr (pyGet data "color" .null)
  let created_at ← decStr (pyGet2 data "createdAt" "created_at" (.str ""))
  let updated_at ← decStr (pyGet2 data "updatedAt" "updated_at" (.str ""))
  let deleted ← decBool (pyGet data "deleted" (.bool false))
  some ⟨id, name, created_at, updated_at, color, deleted⟩

/-- The `StateSnapshot` dataclass from `domain/models.py`: the id-keyed
entity mappings are association lists (Python dicts preserve insertion
order). -/
structure StateSnapshot where
  tasks : List (String × Task)
  projects : List (String × Project)
  sections : List (String × Section)
  tags : List (String × Tag)
  reminders : List (String × Reminder)
  version : ℤ := 1
deriving DecidableEq, Repr

/-- `StateSnapshot.to_dict` from `domain/models.py`. -/
def StateSnapshot.to_dict (s : StateSnapshot) : List (String × JValue) :=
  [("tasks", .obj (s.tasks.map fun p => (p.1, .obj p.2.to_dict))),
   ("projects", .obj (s.projects.map fun p => (p.1, .obj p.2.to_dict))),
   ("sections", .obj (s.sections.map fun p => (p.1, .obj p.2.to_dict))),
   ("tags", .obj (s.tags.map fun p => (p.1, .obj p.2.to_dict))),
   ("reminders", .obj (s.reminders.map fun p => (p.1, .obj p.2.to_dict))),
   ("version", .int s.version)]

/-- Decode one entity mapping of a snapshot: each value of the transport
dictionary must itself be a dictionary that the entity's `from_dict`
accepts. -/
def decEntityEntries {α : Type} (fd : List (String × JValue) → Option α) :
    List (String × JValue) → Option (List (String × α))
  | [] => some []
  | p :: ps =>
    match p.2 with
    | .obj d => do
      let x ← fd d
      let rest ← decEntityEntries fd ps
      some ((p.1, x) :: rest)
    | _ => none

/-- See `decEntityEntries`: the fetched snapshot sub-value must be a
dictionary of per-entity dictionaries. -/
def decEntityMap {α : Type} (fd : List (String × JValue) → Option α) (v : JValue) :
    Option (List (String × α)) :=
  match v with
  | .obj es => decEntityEntries fd es
  | _ => none

/-- `StateSnapshot.from_dict` from `domain/models.py`. -/
def StateSnapshot.from_dict (data : List (String × JValue)) : Option StateSnapshot := do
  let tasks ← decEntityMap Task.from_dict (pyGet data "tasks" (.obj []))
  let projects ← decEntityMap Project.from_dict (pyGet data "projects" (.obj []))
  let sections ← decEntityMap Section.from_dict (pyGet data "sections" (.obj []))
  let tags ← decEntityMap Tag.from_dict (pyGet data "tags" (.obj []))
  let reminders ← decEntityMap Reminder.from_dict (pyGet data "reminders" (.obj []))
  let version ← decInt (pyGet data "version" (.int 1))
  some ⟨tasks, projects, sections, tags, reminders, version⟩

/-- `TaskService.create_task` from `services/task_service.py`; the
generated id and the `now_iso()` instant are explicit arguments. -/
def create_task (id now : String) (title : String) (notes : Option String)
    (project_id : Option String) (due_date : Option String)
    (start_date : Option String) (priority : TaskPriority)
    (tags : Option (List String)) (status : TaskStatus) (kind : Option TaskKind)
    (size : Option TaskSize) (order_index : ℚ) : Task :=
  { id := id, title := title, notes := notes, created_at := now,
    updated_at := now, project_id := project_id, due_date := due_date,
    start_date := start_date, priority := priority, tags := tags.getD [],
    status := status, kind := kind, size := size, order_index := order_index }

/-- A keyword-argument value passed to `update_task`: either a plain
transport value or an enum object (which carries a `.value` attribute; as
a `str`-mixin enum it also behaves as its value string when stored raw). -/
inductive UpdVal where
  | js (v : JValue)
  | pr (p : TaskPriority)
  | st (s : TaskStatus)
  | kd (k : TaskKind)
  | sz (z : TaskSize)

/-- `hasattr(value, "value")`. -/
def UpdVal.hasValueAttr : UpdVal → Bool
  | .js _ => false
  | _ => true

/-- `value.value` of an enum argument (identity on a plain value, on
which the source never reads `.value`). -/
def UpdVal.enumValue : UpdVal → JValue
  | .js v => v
  | .pr p => .str p.val
  | .st s => .str s.val
  | .kd k => .str k.val
  | .sz z => .str z.val

/-- The raw transport value of an update argument (a `str`-mixin enum
instance is the string of its value). -/
def UpdVal.rawJ : UpdVal → JValue
  | .js v => v
  | .pr p => .str p.val
  | .st s => .str s.val
  | .kd k => .str k.val
  | .sz z => .str z.val

/-- The snake_case → camelCase `field_mapping` table of `update_task`
(`mapping.get(key, key)`). -/
def field_mapping : String → String
  | "due_date" => "dueDate"
  | "start_date" => "startDate"
  | "completed_at" => "completedAt"
  | "project_id" => "projectId"
  | "section_id" => "sectionId"
  | "parent_task_id" => "parentTaskId"
  | "order_index" => "orderIndex"
  | "created_at" => "createdAt"
  | "updated_at" => "updatedAt"
  | "context_url" => "contextUrl"
  | "repeat_rule" => "repeatRule"
  | k => k

/-- `dict_key in data`. -/
def amem (d : List (String × JValue)) (k : String) : Bool :=
  d.any fun p => p.1 == k

/-- `data[k] = v` for a key already present: replace the value in place
(a Python dict keeps the key's position). When the key is absent this is
the identity; the source only assigns present keys. -/
def aset (d : List (String × JValue)) (k : String) (v : JValue) :
    List (String × JValue) :=
  d.map fun p => if p.1 = k then (p.1, v) else p

/-- One iteration of the `for key, value in updates.items()` loop of
`update_task`. -/
def apply_update (d : List (String × JValue)) (u : String × UpdVal) :
    List (String × JValue) :=
  let dict_key := field_mapping u.1
  if amem d dict_key then
    if (decide (u.1 = "priority") || decide (u.1 = "status")
        || decide (u.1 = "kind") || decide (u.1 = "size"))
        && u.2.hasValueAttr then
      aset d dict_key u.2.enumValue
    else
      aset d dict_key u.2.rawJ
  else d

/-- `TaskService.update_task` from `services/task_service.py`: round-trip
through the transport dictionary, applying the keyword updates, then
stamping `updatedAt` with the (injected) current instant.  `none` models a
raised exception inside `Task.from_dict`. -/
def update_task (now : String) (task : Task) (updates : List (String × UpdVal)) :
    Option Task :=
  Task.from_dict (aset (updates.foldl apply_update task.to_dict) "updatedAt" (.str now))

/-- `TaskService.complete_task`: the source reads the clock once for
`completed_at` (`nowc`) and `update_task` reads it again for
`updated_at` (`nowu`). -/
def complete_task (nowc nowu : String) (task : Task) : Option Task :=
  update_task nowu task [("status", .st .completed), ("completed_at", .js (.str nowc))]

/-- `TaskService.uncomplete_task`. -/
def uncomplete_task (nowu : String) (task : Task) : Option Task :=
  update_task nowu task [("status", .st .inbox), ("completed_at", .js .null)]

/-- `TaskService.toggle_completed` (the uncomplete branch only reads the
clock once, in `update_task`). -/
def toggle_completed (nowc nowu : String) (task : Task) : Option Task :=
  if task.status = .completed then uncomplete_task nowu task
  else complete_task nowc nowu task

/-- `TaskService.delete_task`. -/
def delete_task (now : String) (task : Task) : Option Task :=
  update_task now task [("deleted", .js (.bool true))]

/-- `TaskService.get_next_order_index`: `1.0` for an empty list, otherwise
`max(t.order_index for t in tasks) + 1.0`. -/
def get_next_order_index (tasks : List Task) : ℚ :=
  match tasks with
  | [] => 1
  | t :: ts => (ts.foldl (fun m x => max m x.order_index) t.order_index) + 1

/-- `TaskService.get_order_index_between` from `services/task_service.py`. -/
def get_order_index_between : Option Task → Option Task → ℚ
  | none, none => 1
  | none, some a => a.order_index / 2
  | some b, none => b.order_index + 1
  | some b, some a => (b.order_index + a.order_index) / 2

/-- A task whose only relevant field is its order index (the allocator
reads nothing else). -/
def taskWithIndex (q : ℚ) : Task :=
  { id := "", title := "", created_at := "", updated_at := "", order_index := q }

/-- Insert, between the adjacent order indices at positions `n` and `n+1`,
the index the allocator returns for that pair. -/
def insertStep : List ℚ → ℕ → List ℚ
  | x :: y :: rest, 0 =>
      x :: get_order_index_between (some (taskWithIndex x)) (some (taskWithIndex y))
        :: y :: rest
  | x :: rest, n+1 => x :: insertStep rest n
  | l, _ => l

/-- Any sequence of adjacent-pair insertions through the allocator. -/
def insertSeq (l : List ℚ) (ops : List ℕ) : List ℚ :=
  ops.foldl insertStep l

/-- The Task-record invariant of the spec: a completed task carries its
completion timestamp. -/
def completed_inv (t : Task) : Prop :=
  t.status = TaskStatus.completed → t.completed_at ≠ none

/-- A concrete task used to instantiate theorems with hypotheses. -/
def sampleTask : Task :=
  { id := "a", title := "a", created_at := "T0", updated_at := "T0" }

/-- `sampleTask` after one completion toggle with clock values "Tc"/"T1". -/
def sampleToggled1 : Task :=
  { sampleTask with status := .completed, completed_at := some "Tc", updated_at := "T1" }

/-- `sampleToggled1` after the second toggle with clock value "T2". -/
def sampleToggled2 : Task :=
  { sampleToggled1 with status := .inbox, completed_at := none, updated_at := "T2" }

/-- A concrete already-deleted task. -/
def sampleDeleted : Task :=
  { id := "d", title := "d", created_at := "T0", updated_at := "T0", deleted := true }

/-! ### Decoder/encoder lemmas for the transport representation -/

theorem decStr_str (s : String) : decStr (.str s) = some s := rfl

theorem decOptStr_enc (o : Option String) : decOptStr (encOptStr o) = some o := by
  cases o <;> rfl

theorem decOptStr_null : decOptStr .null = some none := rfl

theorem decOptStr_str (s : String) : decOptStr (.str s) = some (some s) := rfl

theorem decBool_bool (b : Bool) : decBool (.bool b) = some b := rfl

theorem decNum_num (q : ℚ) : decNum (.num q) = some q := rfl

theorem decInt_int (n : ℤ) : decInt (.int n) = some n := rfl

theorem decPriority_val (p : TaskPriority) : decPriority (.str p.val) = some p := by
  cases p <;> rfl

theorem decStatus_val (s : TaskStatus) : decStatus (.str s.val) = some s := by
  cases s <;> rfl

theorem decOptKind_enc (k : Option TaskKind) : decOptKind (encOptKind k) = some k := by
  rcases k with _ | k
  · rfl
  · cases k <;> rfl

theorem decOptSize_enc (z : Option TaskSize) : decOptSize (encOptSize z) = some z := by
  rcases z with _ | z
  · rfl
  · cases z <;> rfl

theorem decStrs_enc (l : List String) : decStrs (l.map .str) = some l := by
  induction l with
  | nil => rfl
  | cons x xs ih => simp [decStrs, ih, decStr]

theorem decStrList_enc (l : List String) : decStrList (.arr (l.map .str)) = some l := by
  simp [decStrList, decStrs_enc]

theorem decMetaEntries_enc (m : List (String × String)) :
    decMetaEntries (m.map fun p => (p.1, .str p.2)) = some m := by
  induction m with
  | nil => rfl
  | cons x xs ih => simp [decMetaEntries, ih, decStr]

theorem decMeta_enc (m : List (String × String)) : decMeta (encMeta m) = some m := by
  simp [decMeta, encMeta, decMetaEntries_enc]

/-! ### Entity round-trips -/

theorem task_roundtrip (t : Task) : Task.from_dict t.to_dict = some t := by
  simp [Task.from_dict, Task.fromDictA, Task.fromDictB, Task.fromDictC,
    Task.to_dict, alookup, pyGet, pyGet2, decStr_str, decOptStr_enc, decBool_bool,
    decNum_num, decPriority_val, decStatus_val, decOptKind_enc, decOptSize_enc,
    decStrList_enc, decMeta_enc]

theorem reminder_roundtrip (r : Reminder) : Reminder.from_dict r.to_dict = some r := by
  simp [Reminder.from_dict, Reminder.to_dict, alookup, pyGet, pyGet2,
    decStr_str, decOptStr_enc, decBool_bool]

theorem project_roundtrip (p : Project) : Project.from_dict p.to_dict = some p := by
  simp [Project.from_dict, Project.fromDictA, Project.to_dict, alookup, pyGet,
    pyGet2, decStr_str, decOptStr_enc, decBool_bool, decNum_num]

theorem section_roundtrip (s : Section) : Section.from_dict s.to_dict = some s := by
  simp [Section.from_dict, Section.to_dict, alookup, pyGet, pyGet2,
    decStr_str, decOptStr_enc, decBool_bool, decNum_num]

theorem tag_roundtrip (g : Tag) : Tag.from_dict g.to_dict = some g := by
  simp [Tag.from_dict, Tag.to_dict, alookup, pyGet, pyGet2,
    decStr_str, decOptStr_enc, decBool_bool]

theorem decEntityEntries_enc {α : Type}
    (fd : List (String × JValue) → Option α) (td : α → List (String × JValue))
    (h : ∀ x, fd (td x) = some x) (l : List (String × α)) :
    decEntityEntries fd (l.map fun p => (p.1, .obj (td p.2))) = some l := by
  induction l with
  | nil => rfl
  | cons x xs ih => simp [decEntityEntries, h, ih]

theorem snapshot_roundtrip (s : StateSnapshot) :
    StateSnapshot.from_dict s.to_dict = some s := by
  simp [StateSnapshot.from_dict, StateSnapshot.to_dict, decEntityMap, alookup,
    pyGet, decInt_int,
    decEntityEntries_enc Task.from_dict Task.to_dict task_roundtrip,
    decEntityEntries_enc Project.from_dict Project.to_dict project_roundtrip,
    decEntityEntries_enc Section.from_dict Section.to_dict section_roundtrip,
    decEntityEntries_enc Tag.from_dict Tag.to_dict tag_roundtrip,
    decEntityEntries_enc Reminder.from_dict Reminder.to_dict reminder_roundtrip]

/-! ### Evaluation of the mutation-service update path -/

theorem complete_task_eval (nowc nowu : String) (t : Task) :
    complete_task nowc nowu t =
      some { t with status := .completed, completed_at := some nowc, updated_at := nowu } := by
  simp [complete_task, update_task, apply_update, field_mapping, amem, aset,
    Task.to_dict, Task.from_dict, Task.fromDictA, Task.fromDictB, Task.fromDictC,
    alookup, pyGet, pyGet2, decStr_str, decOptStr_enc, decOptStr_null, decOptStr_str,
    decBool_bool, decNum_num, decPriority_val, decStatus_val, decOptKind_enc,
    decOptSize_enc, decStrList_enc, decMeta_enc, UpdVal.hasValueAttr,
    UpdVal.enumValue, UpdVal.rawJ]

theorem uncomplete_task_eval (nowu : String) (t : Task) :
    uncomplete_task nowu t =
      some { t with status := .inbox, completed_at := none, updated_at := nowu } := by
  simp [uncomplete_task, update_task, apply_update, field_mapping, amem, aset,
    Task.to_dict, Task.from_dict, Task.fromDictA, Task.fromDictB, Task.fromDictC,
    alookup, pyGet, pyGet2, decStr_str, decOptStr_enc, decOptStr_null, decOptStr_str,
    decBool_bool, decNum_num, decPriority_val, decStatus_val, decOptKind_enc,
    decOptSize_enc, decStrList_enc, decMeta_enc, UpdVal.hasValueAttr,
    UpdVal.enumValue, UpdVal.rawJ]

theorem delete_task_eval (now : String) (t : Task) :
    delete_task now t = some { t with deleted := true, updated_at := now } := by
  simp [delete_task, update_task, apply_update, field_mapping, amem, aset,
    Task.to_dict, Task.from_dict, Task.fromDictA, Task.fromDictB, Task.fromDictC,
    alookup, pyGet, pyGet2, decStr_str, decOptStr_enc, decOptStr_null, decOptStr_str,
    decBool_bool, decNum_num, decPriority_val, decStatus_val, decOptKind_enc,
    decOptSize_enc, decStrList_enc, decMeta_enc, UpdVal.hasValueAttr,
    UpdVal.enumValue, UpdVal.rawJ]

theorem update_stamp_only (now : String) (t : Task) :
    Task.from_dict (aset t.to_dict "updatedAt" (.str now)) =
      some { t with updated_at := now } := by
  simp [aset, Task.to_dict, Task.from_dict, Task.fromDictA, Task.fromDictB,
    Task.fromDictC, alookup, pyGet, pyGet2, decStr_str, decOptStr_enc,
    decBool_bool, decNum_num, decPriority_val, decStatus_val, decOptKind_enc,
    decOptSize_enc, decStrList_enc, decMeta_enc]

/-! ### Key-set and frame lemmas for `update_task` -/

theorem aset_keys (d : List (String × JValue)) (k : String) (v : JValue) :
    (aset d k v).map Prod.fst = d.map Prod.fst := by
  induction d with
  | nil => rfl
  | cons p rest ih =>
    simp only [aset, List.map_cons] at ih ⊢
    rw [ih]
    split <;> rfl

theorem apply_update_keys (d : List (String × JValue)) (u : String × UpdVal) :
    (apply_update d u).map Prod.fst = d.map Prod.fst := by
  unfold apply_update
  by_cases hm : amem d (field_mapping u.1) = true
  · simp only [hm, if_true]
    split
    · exact aset_keys ..
    · exact aset_keys ..
  · simp only [Bool.not_eq_true] at hm
    simp [hm]

theorem foldl_update_keys (updates : List (String × UpdVal))
    (d : List (String × JValue)) :
    ((updates.foldl apply_update d).map Prod.fst) = d.map Prod.fst := by
  induction updates generalizing d with
  | nil => rfl
  | cons u rest ih => rw [List.foldl_cons, ih, apply_update_keys]

theorem amem_eq_keys (d : List (String × JValue)) (k : String) :
    amem d k = (d.map Prod.fst).any (· == k) := by
  induction d with
  | nil => rfl
  | cons p rest ih =>
    simp only [amem, List.any_cons, List.map_cons] at ih ⊢
    rw [ih]

theorem amem_congr {d d' : List (String × JValue)} (k : String)
    (h : d.map Prod.fst = d'.map Prod.fst) : amem d k = amem d' k := by
  rw [amem_eq_keys, amem_eq_keys, h]

theorem apply_update_not_mem {d : List (String × JValue)} {u : String × UpdVal}
    (h : amem d (field_mapping u.1) = false) : apply_update d u = d := by
  simp [apply_update, h]

theorem alookup_aset_ne (d : List (String × JValue)) (k : String) (v : JValue)
    {k' : String} (h : k' ≠ k) : alookup (aset d k v) k' = alookup d k' := by
  induction d with
  | nil => rfl
  | cons p rest ih =>
    obtain ⟨pk, pv⟩ := p
    simp only [aset, List.map_cons] at ih ⊢
    by_cases hk : pk = k
    · have hne : k' ≠ pk := fun e => h (e.trans hk)
      rw [if_pos hk]
      simp only [alookup, if_neg hne]
      exact ih
    · rw [if_neg hk]
      by_cases hkp : k' = pk
      · simp [alookup, hkp]
      · simp only [alookup, if_neg hkp]
        exact ih

theorem apply_update_alookup_ne (d : List (String × JValue)) (u : String × UpdVal)
    {k' : String} (h : field_mapping u.1 ≠ k') :
    alookup (apply_update d u) k' = alookup d k' := by
  unfold apply_update
  by_cases hm : amem d (field_mapping u.1) = true
  · simp only [hm, if_true]
    split
    · exact alookup_aset_ne _ _ _ (Ne.symm h)
    · exact alookup_aset_ne _ _ _ (Ne.symm h)
  · simp only [Bool.not_eq_true] at hm
    simp [hm]

theorem foldl_update_alookup_ne (updates : List (String × UpdVal))
    (d : List (String × JValue)) {k' : String}
    (h : ∀ u ∈ updates, field_mapping u.1 ≠ k') :
    alookup (updates.foldl apply_update d) k' = alookup d k' := by
  induction updates generalizing d with
  | nil => rfl
  | cons u rest ih =>
    rw [List.foldl_cons, ih _ fun v hv => h v (List.mem_cons_of_mem _ hv),
      apply_update_alookup_ne _ _ (h u (List.mem_cons_self ..))]

theorem fromDictB_fields {d : List (String × JValue)} {b : TaskFieldsB}
    (h : Task.fromDictB d = some b) :
    decOptStr (pyGet2 d "completedAt" "completed_at" .null) = some b.completed_at ∧
    decStatus (pyGet d "status" (.str "inbox")) = some b.status := by
  unfold Task.fromDictB at h
  rcases h1 : decOptStr (pyGet2 d "completedAt" "completed_at" .null) with _ | ca <;>
    simp [h1] at h
  rcases h2 : decOptStr (pyGet2 d "projectId" "project_id" .null) with _ | pid <;>
    simp [h2] at h
  rcases h3 : decOptStr (pyGet2 d "sectionId" "section_id" .null) with _ | sid <;>
    simp [h3] at h
  rcases h4 : decOptStr (pyGet2 d "parentTaskId" "parent_task_id" .null) with _ | ptid <;>
    simp [h4] at h
  rcases h5 : decPriority (pyGet d "priority" (.str "none")) with _ | prio <;>
    simp [h5] at h
  rcases h6 : decStrList (pyGet d "tags" (.arr [])) with _ | tg <;>
    simp [h6] at h
  rcases h7 : decStatus (pyGet d "status" (.str "inbox")) with _ | st <;>
    simp [h7] at h
  subst h
  exact ⟨rfl, rfl⟩

theorem from_dict_fields {d : List (String × JValue)} {t' : Task}
    (h : Task.from_dict d = some t') :
    ∃ b : TaskFieldsB, Task.fromDictB d = some b
      ∧ t'.status = b.status ∧ t'.completed_at = b.completed_at := by
  unfold Task.from_dict at h
  rcases hA : Task.fromDictA d with _ | a <;> simp [hA] at h
  rcases hB : Task.fromDictB d with _ | b <;> simp [hB] at h
  rcases hC : Task.fromDictC d with _ | c <;> simp [hC] at h
  subst h
  exact ⟨b, rfl, rfl, rfl⟩ 

theorem update_task_frame {now : String} {t : Task} {updates : List (String × UpdVal)}
    {t' : Task}
    (hs : ∀ u ∈ updates, field_mapping u.1 ≠ "status")
    (hc : ∀ u ∈ updates, field_mapping u.1 ≠ "completedAt")
    (h : update_task now t updates = some t') :
    t'.status = t.status ∧ t'.completed_at = t.completed_at := by
  have hst : alookup (aset (updates.foldl apply_update t.to_dict) "updatedAt" (.str now))
      "status" = some (.str t.status.val) := by
    rw [alookup_aset_ne _ _ _ (by decide), foldl_update_alookup_ne _ _ hs]
    rfl
  have hca : alookup (aset (updates.foldl apply_update t.to_dict) "updatedAt" (.str now))
      "completedAt" = some (encOptStr t.completed_at) := by
    rw [alookup_aset_ne _ _ _ (by decide), foldl_update_alookup_ne _ _ hc]
    rfl
  unfold update_task at h
  obtain ⟨b, hB, hsteq, hcaeq⟩ := from_dict_fields h
  obtain ⟨hb_ca, hb_st⟩ := fromDictB_fields hB
  rw [pyGet, hst, Option.getD_some, decStatus_val] at hb_st
  rw [pyGet2, hca, decOptStr_enc] at hb_ca
  rw [hsteq, hcaeq, ← Option.some_inj.mp hb_st, Option.some_inj.mp hb_ca]
  exact ⟨rfl, rfl⟩


theorem foldl_update_filter (t : Task) (updates : List (String × UpdVal))
    (d : List (String × JValue)) (hkeys : d.map Prod.fst = t.to_dict.map Prod.fst) :
    updates.foldl apply_update d
      = (updates.filter fun u => amem t.to_dict (field_mapping u.1)).foldl apply_update d := by
  induction updates generalizing d with
  | nil => rfl
  | cons u rest ih =>
    rw [List.foldl_cons]
    by_cases hm : amem t.to_dict (field_mapping u.1) = true
    · rw [List.filter_cons, if_pos hm, List.foldl_cons]
      exact ih _ ((apply_update_keys d u).trans hkeys)
    · have hm2 : amem d (field_mapping u.1) = false := by
        rw [amem_congr _ hkeys]
        exact Bool.eq_false_iff.mpr hm
      rw [apply_update_not_mem hm2, List.filter_cons, if_neg hm]
      exact ih _ hkeys


theorem mem_view_sort {r : Task → Task → Prop} [DecidableRel r] {p : Task → Bool}
    {ts : List Task} {t : Task} :
    t ∈ List.insertionSort r (ts.filter p) ↔ t ∈ ts ∧ p t = true := by
  rw [List.mem_insertionSort, List.mem_filter]

theorem foldl_max_init_le (l : List Task) (init : ℚ) :
    init ≤ l.foldl (fun m x => max m x.order_index) init := by
  induction l generalizing init with
  | nil => exact le_refl _
  | cons x xs ih => exact le_trans (le_max_left _ _) (ih _)

theorem foldl_max_mem_le (l : List Task) : ∀ {t : Task}, t ∈ l →
    ∀ init : ℚ, t.order_index ≤ l.foldl (fun m x => max m x.order_index) init := by
  induction l with
  | nil => intro t h init; cases h
  | cons x xs ih =>
    intro t h init
    rcases List.mem_cons.mp h with rfl | h2
    · exact le_trans (le_max_right _ _) (foldl_max_init_le _ _)
    · exact ih h2 _

theorem foldl_max_attained : ∀ (l : List Task) (init : ℚ),
    l.foldl (fun m x => max m x.order_index) init = init
      ∨ ∃ t ∈ l, l.foldl (fun m x => max m x.order_index) init = t.order_index
  | [], _ => Or.inl rfl
  | x :: xs, init => by
    rcases foldl_max_attained xs (max init x.order_index) with h | ⟨t, ht, h⟩
    · rcases max_choice init x.order_index with hm | hm
      · exact Or.inl (by rw [List.foldl_cons, h, hm])
      · exact Or.inr ⟨x, List.mem_cons_self .., by rw [List.foldl_cons, h, hm]⟩
    · exact Or.inr ⟨t, List.mem_cons_of_mem _ ht, by rw [List.foldl_cons, h]⟩

theorem mid_lt {x y : ℚ} (h : x < y) :
    x < get_order_index_between (some (taskWithIndex x)) (some (taskWithIndex y))
      ∧ get_order_index_between (some (taskWithIndex x)) (some (taskWithIndex y)) < y := by
  simp only [get_order_index_between, taskWithIndex]
  constructor <;> linarith

theorem insertStep_head? : ∀ (l : List ℚ) (n : ℕ), (insertStep l n).head? = l.head?
  | [], _ => rfl
  | [_], 0 => rfl
  | [_], _+1 => rfl
  | _ :: _ :: _, 0 => rfl
  | _ :: _ :: _, _+1 => rfl

theorem chain_insertStep : ∀ (l : List ℚ) (n : ℕ),
    l.Chain' (· < ·) → (insertStep l n).Chain' (· < ·)
  | [], _, h => h
  | [x], 0, h => h
  | [x], n+1, h => by simp [insertStep]
  | x :: y :: rest, 0, h => by
    rw [List.chain'_cons] at h
    have hm := mid_lt h.1
    exact List.chain'_cons.mpr ⟨hm.1, List.chain'_cons.mpr ⟨hm.2, h.2⟩⟩
  | x :: y :: rest, n+1, h => by
    rw [List.chain'_cons] at h
    apply List.chain'_cons'.mpr
    refine ⟨?_, chain_insertStep (y :: rest) n (List.chain'_cons.mpr
      ⟨h.1, h.2⟩ |> List.Chain'.tail)⟩
    intro z hz
    rw [insertStep_head?] at hz
    simp only [List.head?_cons, Option.mem_def, Option.some.injEq] at hz
    exact hz ▸ h.1

theorem chain_insertSeq : ∀ (ops : List ℕ) (l : List ℚ),
    l.Chain' (· < ·) → (insertSeq l ops).Chain' (· < ·)
  | [], _, h => h
  | n :: rest, l, h => chain_insertSeq rest _ (chain_insertStep l n h)

theorem todayLe_overdue {today : String} {a b : Task} (h : todayLe today a b)
    (hb : is_overdue today b = true) : is_overdue today a = true := by
  unfold todayLe todayKey at h
  rcases (Prod.Lex.le_iff _ _).mp h with h1 | ⟨h1, _⟩
  · rw [Bool.lt_iff] at h1
    rw [hb] at h1
    simp at h1
  · rw [hb] at h1
    simpa using h1



/-! ### Claim theorems -/

theorem today_pred_iff (today : String) (t : Task) :
    today_pred today t = true ↔
      t.deleted = false ∧ t.status ≠ .completed ∧ t.status ≠ .cancelled
      ∧ (is_due_today today t = true ∨ is_starting_today today t = true
          ∨ is_overdue today t = true) := by
  simp [today_pred, and_assoc, not_or, or_assoc]

/-- C1: `get_today_tasks` returns exactly the non-deleted tasks whose status is
neither completed nor cancelled and which are due today, start today, or are
overdue, as a permutation of the filtered input, sorted (stably) by the 3-key
`(not overdue, due_date-or-sentinel, order_index)`; in particular every overdue
task sorts before every non-overdue task regardless of order index. -/
theorem c1_today (today : String) (tasks : List Task) :
    (get_today_tasks today tasks).Perm (tasks.filter (today_pred today))
    ∧ (∀ t, t ∈ get_today_tasks today tasks ↔
        t ∈ tasks ∧ t.deleted = false
          ∧ t.status ≠ .completed ∧ t.status ≠ .cancelled
          ∧ (is_due_today today t = true ∨ is_starting_today today t = true
              ∨ is_overdue today t = true))
    ∧ List.Sorted (todayLe today) (get_today_tasks today tasks)
    ∧ (∀ c : List Task, c.Pairwise (todayLe today) →
        c.Sublist (tasks.filter (today_pred today)) →
        c.Sublist (get_today_tasks today tasks))
    ∧ List.Pairwise (fun a b => is_overdue today b = true → is_overdue today a = true)
        (get_today_tasks today tasks) := by
  refine ⟨List.perm_insertionSort _ _, fun t => ?_, List.sorted_insertionSort _ _,
    fun c hp hs => List.sublist_insertionSort hp hs, ?_⟩
  · rw [get_today_tasks, mem_view_sort, and_congr_right_iff]
    exact fun _ => today_pred_iff today t
  · exact List.Pairwise.imp (fun h => todayLe_overdue h)
      (List.sorted_insertionSort (todayLe today) _)

/-- C2: a task with `deleted = true` appears in no view (Inbox, Today, Upcoming,
Anytime, Completed, Review/overdue, Project, Tag, Search), regardless of its
other fields. -/
theorem c2_deleted (t : Task) (ts : List Task) (today pid tid q : String)
    (limit : ℕ) (h : t.deleted = true) :
    t ∉ get_inbox_tasks ts ∧ t ∉ get_today_tasks today ts
    ∧ t ∉ get_upcoming_tasks today ts ∧ t ∉ get_anytime_tasks ts
    ∧ t ∉ get_completed_tasks ts limit ∧ t ∉ get_overdue_tasks today ts
    ∧ t ∉ get_project_tasks ts pid ∧ t ∉ get_tag_tasks ts tid
    ∧ t ∉ search_tasks ts q := by
  refine ⟨fun hm => ?_, fun hm => ?_, fun hm => ?_, fun hm => ?_, fun hm => ?_,
    fun hm => ?_, fun hm => ?_, fun hm => ?_, fun hm => ?_⟩
  · rw [get_inbox_tasks, filter_tasks, mem_view_sort] at hm
    simp [matches_criteria, h] at hm
  · rw [get_today_tasks, mem_view_sort] at hm
    simp [today_pred, h] at hm
  · rw [get_upcoming_tasks, mem_view_sort] at hm
    simp [upcoming_pred, h] at hm
  · rw [get_anytime_tasks, mem_view_sort] at hm
    simp [anytime_pred, h] at hm
  · rw [get_completed_tasks] at hm
    have hm2 := List.take_subset _ _ hm
    rw [filter_tasks, mem_view_sort] at hm2
    simp [matches_criteria, h] at hm2
  · rw [get_overdue_tasks, mem_view_sort] at hm
    simp [overdue_pred, h] at hm
  · rw [get_project_tasks, mem_view_sort] at hm
    simp [project_pred, h] at hm
  · rw [get_tag_tasks, mem_view_sort] at hm
    simp [tag_pred, h] at hm
  · rw [search_tasks, filter_tasks, List.mem_filter] at hm
    simp [matches_criteria, h] at hm

/-- Witness for C2 at a concrete deleted task. -/
theorem c2_witness :
    sampleDeleted ∉ get_inbox_tasks [sampleDeleted]
    ∧ sampleDeleted ∉ get_today_tasks "2024-05-05" [sampleDeleted]
    ∧ sampleDeleted ∉ get_upcoming_tasks "2024-05-05" [sampleDeleted]
    ∧ sampleDeleted ∉ get_anytime_tasks [sampleDeleted]
    ∧ sampleDeleted ∉ get_completed_tasks [sampleDeleted] 100
    ∧ sampleDeleted ∉ get_overdue_tasks "2024-05-05" [sampleDeleted]
    ∧ sampleDeleted ∉ get_project_tasks [sampleDeleted] "p"
    ∧ sampleDeleted ∉ get_tag_tasks [sampleDeleted] "g"
    ∧ sampleDeleted ∉ search_tasks [sampleDeleted] "q" :=
  c2_deleted sampleDeleted [sampleDeleted] "2024-05-05" "p" "g" "q" 100 rfl

/-- C3: the order-index allocator satisfies exactly the four `between` equations,
and `get_next_order_index` returns 1 on an empty list and otherwise the maximum
existing order index plus 1. -/
theorem c3_alloc :
    get_order_index_between none none = 1
    ∧ (∀ a : Task, get_order_index_between none (some a) = a.order_index / 2)
    ∧ (∀ b : Task, get_order_index_between (some b) none = b.order_index + 1)
    ∧ (∀ b a : Task, get_order_index_between (some b) (some a)
        = (b.order_index + a.order_index) / 2)
    ∧ get_next_order_index [] = 1
    ∧ ∀ ts : List Task, ts ≠ [] →
        (∃ t ∈ ts, get_next_order_index ts = t.order_index + 1)
        ∧ ∀ t ∈ ts, t.order_index + 1 ≤ get_next_order_index ts := by
  refine ⟨rfl, fun a => rfl, fun b => rfl, fun b a => rfl, rfl, ?_⟩
  intro ts hne
  cases ts with
  | nil => exact absurd rfl hne
  | cons x xs =>
    constructor
    · rcases foldl_max_attained xs x.order_index with hat | ⟨t, ht, hat⟩
      · exact ⟨x, List.mem_cons_self .., by simp [get_next_order_index, hat]⟩
      · exact ⟨t, List.mem_cons_of_mem _ ht, by simp [get_next_order_index, hat]⟩
    · intro t ht
      rcases List.mem_cons.mp ht with rfl | h2
      · simpa [get_next_order_index] using
          add_le_add_right (foldl_max_init_le xs t.order_index) 1
      · simpa [get_next_order_index] using
          add_le_add_right (foldl_max_mem_le xs h2 x.order_index) 1

/-- Witness for C3 at a concrete non-empty task list. -/
theorem c3_witness :
    ([taskWithIndex 5] ≠ ([] : List Task))
    ∧ (∃ t ∈ [taskWithIndex 5],
        get_next_order_index [taskWithIndex 5] = t.order_index + 1)
    ∧ ∀ t ∈ [taskWithIndex 5],
        t.order_index + 1 ≤ get_next_order_index [taskWithIndex 5] := by
  refine ⟨by simp, ?_⟩
  exact c3_alloc.2.2.2.2.2 [taskWithIndex 5] (by simp)

/-- C4: for neighbours `x < y` the allocator value lies strictly between them,
and any sequence of adjacent-pair insertions starting from `[x, y]` keeps the
index list strictly increasing (order indices are modelled as exact rationals). -/
theorem c4_insert (x y : ℚ) (h : x < y) :
    (x < get_order_index_between (some (taskWithIndex x)) (some (taskWithIndex y))
      ∧ get_order_index_between (some (taskWithIndex x)) (some (taskWithIndex y)) < y)
    ∧ ∀ ops : List ℕ, (insertSeq [x, y] ops).Chain' (· < ·) :=
  ⟨mid_lt h, fun ops => chain_insertSeq ops [x, y] (by simp [List.chain'_cons, h])⟩

/-- Witness for C4 at `x = 0`, `y = 1` and a concrete insertion sequence. -/
theorem c4_witness :
    (0 : ℚ) < 1 ∧ (insertSeq [0, 1] [0, 1, 0]).Chain' (· < ·) :=
  ⟨by norm_num, (c4_insert 0 1 (by norm_num)).2 [0, 1, 0]⟩

/-- C5: for every entity (Task, Project, Section, Tag, Reminder) and every
`StateSnapshot`, `from_dict` after `to_dict` reproduces the entity exactly,
whether the optional fields are populated or absent. -/
theorem c5_roundtrip :
    (∀ t : Task, Task.from_dict t.to_dict = some t)
    ∧ (∀ p : Project, Project.from_dict p.to_dict = some p)
    ∧ (∀ s : Section, Section.from_dict s.to_dict = some s)
    ∧ (∀ g : Tag, Tag.from_dict g.to_dict = some g)
    ∧ (∀ r : Reminder, Reminder.from_dict r.to_dict = some r)
    ∧ (∀ s : StateSnapshot, StateSnapshot.from_dict s.to_dict = some s) :=
  ⟨task_roundtrip, project_roundtrip, section_roundtrip, tag_roundtrip,
    reminder_roundtrip, snapshot_roundtrip⟩

theorem completed_inv_create (id now title : String)
    (notes project_id due_date start_date : Option String) (priority : TaskPriority)
    (tags : Option (List String)) (status : TaskStatus) (kind : Option TaskKind)
    (size : Option TaskSize) (order_index : ℚ) (hst : status ≠ TaskStatus.completed) :
    completed_inv (create_task id now title notes project_id due_date start_date
      priority tags status kind size order_index) :=
  fun hcomp => absurd hcomp hst

theorem completed_inv_complete {nowc nowu : String} {t t' : Task}
    (h : complete_task nowc nowu t = some t') : completed_inv t' := by
  rw [complete_task_eval] at h
  cases Option.some_inj.mp h
  intro _
  simp

theorem completed_inv_uncomplete {nowu : String} {t t' : Task}
    (h : uncomplete_task nowu t = some t') : completed_inv t' := by
  rw [uncomplete_task_eval] at h
  cases Option.some_inj.mp h
  intro hc
  exact absurd hc (by simp)

theorem completed_inv_toggle {nowc nowu : String} {t t' : Task}
    (h : toggle_completed nowc nowu t = some t') : completed_inv t' := by
  rw [toggle_completed] at h
  split at h
  · exact completed_inv_uncomplete h
  · exact completed_inv_complete h

theorem completed_inv_delete {now : String} {t t' : Task} (hi : completed_inv t)
    (h : delete_task now t = some t') : completed_inv t' := by
  rw [delete_task_eval] at h
  cases Option.some_inj.mp h
  intro hc
  exact hi hc

theorem completed_inv_update {now : String} {t : Task}
    {updates : List (String × UpdVal)} {t' : Task}
    (hk : ∀ u ∈ updates, field_mapping u.1 ≠ "status" ∧ field_mapping u.1 ≠ "completedAt")
    (hi : completed_inv t) (h : update_task now t updates = some t') :
    completed_inv t' := by
  obtain ⟨hst, hca⟩ := update_task_frame (fun u hu => (hk u hu).1) (fun u hu => (hk u hu).2) h
  intro hc
  rw [hca]
  exact hi (hst ▸ hc)

/-- C6 (amended): the invariant `status = completed → completed_at is set` is
established by `create_task` whenever the requested status is not `completed`,
by `complete_task`, `uncomplete_task` and `toggle_completed` unconditionally,
and preserved by `delete_task`, and by `update_task` when no update key maps to
the `status` or `completedAt` dictionary fields. -/
theorem c6_amended :
    (∀ (id now title : String) (notes project_id due_date start_date : Option String)
        (priority : TaskPriority) (tags : Option (List String)) (status : TaskStatus)
        (kind : Option TaskKind) (size : Option TaskSize) (order_index : ℚ),
        status ≠ TaskStatus.completed →
        completed_inv (create_task id now title notes project_id due_date start_date
          priority tags status kind size order_index))
    ∧ (∀ (nowc nowu : String) (t t' : Task),
        complete_task nowc nowu t = some t' → completed_inv t')
    ∧ (∀ (nowu : String) (t t' : Task),
        uncomplete_task nowu t = some t' → completed_inv t')
    ∧ (∀ (nowc nowu : String) (t t' : Task),
        toggle_completed nowc nowu t = some t' → completed_inv t')
    ∧ (∀ (now : String) (t t' : Task), completed_inv t →
        delete_task now t = some t' → completed_inv t')
    ∧ (∀ (now : String) (t : Task) (updates : List (String × UpdVal)) (t' : Task),
        (∀ u ∈ updates, field_mapping u.1 ≠ "status" ∧ field_mapping u.1 ≠ "completedAt") →
        completed_inv t → update_task now t updates = some t' → completed_inv t') :=
  ⟨fun _ _ _ _ _ _ _ _ _ _ _ _ _ h => completed_inv_create _ _ _ _ _ _ _ _ _ _ _ _ _ h,
    fun _ _ _ _ h => completed_inv_complete h,
    fun _ _ _ h => completed_inv_uncomplete h,
    fun _ _ _ _ h => completed_inv_toggle h,
    fun _ _ _ hi h => completed_inv_delete hi h,
    fun _ _ _ _ hk hi h => completed_inv_update hk hi h⟩

/-- Counterexample to C6 as stated: `create_task` with `status = completed`
produces a task whose status is completed but whose `completed_at` is `None`. -/
theorem c6_counterexample :
    ¬ completed_inv (create_task "i" "T0" "t" none none none none .none none
      .completed none none 0) :=
  fun h => h rfl rfl

/-- Witness for C6 (amended) at a concrete completion. -/
theorem c6_witness : completed_inv sampleToggled1 :=
  c6_amended.2.1 "Tc" "T1" sampleTask sampleToggled1 (by decide)

/-- C7: `update_task` never fails because of an unrecognized field name — the
update list behaves like its restriction to recognized names, and when every
supplied name is unrecognized the result is the task with only `updated_at`
refreshed. -/
theorem c7_update (now : String) (t : Task) (updates : List (String × UpdVal)) :
    update_task now t updates
      = update_task now t (updates.filter fun u => amem t.to_dict (field_mapping u.1))
    ∧ ((∀ u ∈ updates, amem t.to_dict (field_mapping u.1) = false) →
        update_task now t updates = some { t with updated_at := now }) := by
  constructor
  · unfold update_task
    rw [foldl_update_filter t updates t.to_dict rfl]
  · intro hall
    have hnil : updates.filter (fun u => amem t.to_dict (field_mapping u.1)) = [] :=
      List.filter_eq_nil_iff.mpr fun u hu => by simp [hall u hu]
    have h0 : update_task now t updates = update_task now t [] := by
      unfold update_task
      rw [foldl_update_filter t updates t.to_dict rfl, hnil]
    rw [h0]
    exact update_stamp_only now t

/-- Witness for C7 at a concrete unrecognized update. -/
theorem c7_witness :
    update_task "T1" sampleTask [("bogus", .js (.str "x"))]
      = some { sampleTask with updated_at := "T1" } :=
  (c7_update "T1" sampleTask [("bogus", .js (.str "x"))]).2 (by decide)

/-- C8: toggling completion twice on an inbox task first completes it (stamping
`completed_at`) and then returns it to `inbox` with `completed_at` cleared;
each toggle stamps `updated_at` with the clock value of that call, so
`updated_at` strictly increases whenever the clock does. -/
theorem c8_toggle (nowc nowu nowc2 nowu2 : String) (t0 : Task)
    (hst : t0.status = TaskStatus.inbox) :
    (∃ t1 t2, toggle_completed nowc nowu t0 = some t1
      ∧ toggle_completed nowc2 nowu2 t1 = some t2)
    ∧ ∀ t1 t2, toggle_completed nowc nowu t0 = some t1 →
        toggle_completed nowc2 nowu2 t1 = some t2 →
        t2.status = TaskStatus.inbox ∧ t2.completed_at = none
        ∧ t1.updated_at = nowu ∧ t2.updated_at = nowu2
        ∧ (t0.updated_at < nowu → nowu < nowu2 →
            t0.updated_at < t1.updated_at ∧ t1.updated_at < t2.updated_at) := by
  have hne : ¬ t0.status = TaskStatus.completed := by rw [hst]; exact fun h => nomatch h
  have h1 : toggle_completed nowc nowu t0
      = some { t0 with status := .completed, completed_at := some nowc, updated_at := nowu } := by
    rw [toggle_completed, if_neg hne]
    exact complete_task_eval ..
  have h2 : toggle_completed nowc2 nowu2
      { t0 with status := TaskStatus.completed, completed_at := some nowc, updated_at := nowu }
      = some { t0 with status := TaskStatus.inbox, completed_at := none, updated_at := nowu2 } := by
    rw [toggle_completed, if_pos rfl]
    exact uncomplete_task_eval ..
  refine ⟨⟨_, _, h1, h2⟩, ?_⟩
  intro t1 t2 e1 e2
  rw [h1, Option.some_inj] at e1
  subst e1
  rw [h2, Option.some_inj] at e2
  subst e2
  exact ⟨rfl, rfl, rfl, rfl, fun ha hb => ⟨ha, hb⟩⟩

/-- Witness for C8 at a concrete fresh inbox task and increasing clock values. -/
theorem c8_witness :
    toggle_completed "Tc" "T1" sampleTask = some sampleToggled1
    ∧ toggle_completed "Tc2" "T2" sampleToggled1 = some sampleToggled2
    ∧ sampleToggled2.status = TaskStatus.inbox ∧ sampleToggled2.completed_at = none
    ∧ sampleTask.updated_at < sampleToggled1.updated_at
    ∧ sampleToggled1.updated_at < sampleToggled2.updated_at := by
  have hl1 : sampleTask.updated_at < ("T1" : String) := by
    show ("T0" : String) < "T1"
    rw [String.lt_iff_toList_lt]
    decide
  have hl2 : ("T1" : String) < ("T2" : String) := by
    rw [String.lt_iff_toList_lt]
    decide
  have e1 : toggle_completed "Tc" "T1" sampleTask = some sampleToggled1 := by decide
  have e2 : toggle_completed "Tc2" "T2" sampleToggled1 = some sampleToggled2 := by decide
  have H := (c8_toggle "Tc" "T1" "Tc2" "T2" sampleTask rfl).2 sampleToggled1 sampleToggled2 e1 e2
  exact ⟨e1, e2, H.1, H.2.1, (H.2.2.2.2 hl1 hl2).1, (H.2.2.2.2 hl1 hl2).2⟩

/-- C9: deleting an already-deleted task yields the same task with only
`updated_at` restamped — `delete_task` is idempotent up to `updated_at`. -/
theorem c9_delete (now : String) (t : Task) (h : t.deleted = true) :
    delete_task now t = some { t with updated_at := now } := by
  rw [delete_task_eval, ← h]

/-- Witness for C9 at a concrete already-deleted task. -/
theorem c9_witness :
    delete_task "T3" sampleDeleted = some { sampleDeleted with updated_at := "T3" } :=
  c9_delete "T3" sampleDeleted rfl

/-- C10: `filter_tasks` returns a sublist of its input (order preserved, no
duplication), containing exactly the members that satisfy all supplied
criteria. -/
theorem c10_filter (ts : List Task) (c : ViewCriteria) :
    (filter_tasks ts c).Sublist ts
    ∧ (∀ t, t ∈ filter_tasks ts c ↔ t ∈ ts ∧ matches_criteria c t = true)
    ∧ ∀ t, List.count t (filter_tasks ts c) ≤ List.count t ts := by
  refine ⟨List.filter_sublist ts, fun t => ?_, fun t => (List.filter_sublist ts).count_le t⟩
  rw [filter_tasks, List.mem_filter]



end Phitodo
